import Mathlib

set_option linter.all false
set_option maxRecDepth 10000

/-! Verification development for the Yggdrasil Commander control-plane core:
the configuration-mutation engine (exit-route toggle, peer bootstrap,
config store load/save) and the reload orchestrator, together with the
frontend API wrapper and settings-page toggle handler. -/

/-! ## Data model -/

/-- The `TunnelRouting` block of the daemon configuration. -/
structure TunnelRouting where
  enable : Bool
  ipv6Destinations : List String
  ipv6Sources : List String
  ipv4Destinations : List String
  ipv4Sources : List String
deriving DecidableEq, Repr

/-- The daemon configuration document, restricted to the substructure the
control-plane logic reads and writes: the peer list, the admin listen
address, and the (possibly absent) tunnel-routing block. -/
structure ConfigDocument where
  peers : List String
  adminListen : String
  tunnelRouting : Option TunnelRouting
deriving DecidableEq, Repr

/-! ## Exit-Route Manager -/

/-- The all-addresses IPv6 route advertised by an exit node. -/
def allAddressesRoute : String := "::/0"

/-- Modelled from the spec: a config with no prior routing block is handled
gracefully by treating the absent block as disabled with all four route
sets empty. -/
def emptyTunnelRouting : TunnelRouting :=
  { enable := false, ipv6Destinations := [], ipv6Sources := [], ipv4Destinations := [],
    ipv4Sources := [] }

/-- `not any([IPv6Destinations, IPv6Sources, IPv4Destinations, IPv4Sources])`:
all four route sets are empty. -/
def routesEmpty (tr : TunnelRouting) : Bool :=
  tr.ipv6Destinations.isEmpty && tr.ipv6Sources.isEmpty && tr.ipv4Destinations.isEmpty &&
    tr.ipv4Sources.isEmpty

/-- The exit-node toggle on the routing block: enabling sets `Enable` and
appends the all-addresses route to `IPv6Destinations` unless already
present; disabling removes the first occurrence of the all-addresses route
from `IPv6Destinations` if present, then clears `Enable` when all four
route sets are empty. -/
def setExitNodeRouting (tr : TunnelRouting) (enabled : Bool) : TunnelRouting :=
  if enabled then
    let dests :=
      if allAddressesRoute ∈ tr.ipv6Destinations then tr.ipv6Destinations
      else tr.ipv6Destinations ++ [allAddressesRoute]
    { tr with enable := true, ipv6Destinations := dests }
  else
    let tr1 : TunnelRouting :=
      { tr with ipv6Destinations := tr.ipv6Destinations.erase allAddressesRoute }
    if routesEmpty tr1 then { tr1 with enable := false } else tr1

/-- The exit-node toggle on a whole document; an absent routing block is
defaulted before the toggle runs. -/
def setExitNode (cfg : ConfigDocument) (enabled : Bool) : ConfigDocument :=
  { cfg with
    tunnelRouting := some (setExitNodeRouting (cfg.tunnelRouting.getD emptyTunnelRouting) enabled) }

/-- The routes reported back to the caller after a toggle. -/
def advertisedRoutes (cfg : ConfigDocument) : List String :=
  (cfg.tunnelRouting.getD emptyTunnelRouting).ipv6Destinations

/-- The enabled flag reported back to the caller after a toggle. -/
def exitNodeEnabledFlag (cfg : ConfigDocument) : Bool :=
  (cfg.tunnelRouting.getD emptyTunnelRouting).enable

/-- The document invariant: `tunnelRouting.enabled` is true only if at
least one of the four route sets is non-empty. -/
def configRoutingInvariant (cfg : ConfigDocument) : Bool :=
  match cfg.tunnelRouting with
  | none => true
  | some tr => !tr.enable || !(routesEmpty tr)

/-! ## Peer Bootstrap Engine -/

/-- Modelled from the spec: the fixed preferred-region set (broad North
American and European tags); the snippet elides the tail of the list, and
none of the verified properties depends on the exact members. -/
def preferredRegions : List String :=
  ["us", "europe", "united states", "germany", "netherlands", "france", "canada"]

/-- `leadingRun n h` holds when `n` is an initial run of `h`. -/
def leadingRun : List Char → List Char → Bool
  | [], _ => true
  | _ :: _, [] => false
  | a :: as, b :: bs => a == b && leadingRun as bs

/-- Substring containment on character lists. -/
def containsSub (needle : List Char) : List Char → Bool
  | [] => needle.isEmpty
  | c :: cs => leadingRun needle (c :: cs) || containsSub needle cs

/-- `needle in hay` on strings, as Python substring containment. -/
def strContainsSub (hay needle : String) : Bool :=
  containsSub needle.data hay.data

/-- ASCII lowering of a string, written structurally so that it evaluates
inside the kernel. -/
def strToLower (s : String) : String :=
  String.mk (s.data.map Char.toLower)

/-- `any(region in country.lower() for region in preferred_regions)`. -/
def regionMatches (country : String) : Bool :=
  preferredRegions.any (fun r => strContainsSub (strToLower country) r)

/-- The eligible candidate pool: all peers of region-matching countries,
falling back to the full candidate set when no region matches (modelled
from the spec's global fallback). -/
def eligiblePeers (peerData : List (String × List String)) : List String :=
  let preferred := (peerData.filter (fun kv => regionMatches kv.fst)).bind (fun kv => kv.snd)
  if preferred.isEmpty then peerData.bind (fun kv => kv.snd) else preferred

/-- Modelled from the spec: `random.sample(avail, k)` draws `k` distinct
elements without replacement, and when fewer than `k` candidates remain all
of them are selected; the uniform randomness is elided by fixing the draw
to the first `k` elements of the (arbitrarily ordered) pool. -/
def selectPeers (avail : List String) (k : Nat) : List String :=
  if avail.length < k then avail else avail.take k

/-- The deduplication loop: `existing_peers = set(config['Peers'])` is
taken once, and each selected URI is appended only when not in that set,
in selection order. -/
def bootstrapAdded (existing selected : List String) : List String :=
  selected.filter (fun p => decide (p ∉ existing))

/-- The bootstrap mutation on a document: select from the eligible pool,
deduplicate against the existing peers, append the novel URIs in selection
order; returns the mutated document and the list of URIs appended. -/
def bootstrap (cfg : ConfigDocument) (peerData : List (String × List String))
    (targetCount : Nat) : ConfigDocument × List String :=
  let selected := selectPeers (eligiblePeers peerData) targetCount
  let added := bootstrapAdded cfg.peers selected
  ({ cfg with peers := cfg.peers ++ added }, added)

/-! ## Reload Orchestrator -/

/-- Modelled from the spec: the ambient system state the reload
orchestrator observes. `pidofOutput` is the pid list printed by a
successful `pidof yggdrasil` (`none` when the command is unavailable or
exits non-zero); `processTable` is the `ps aux` table as pid/command-line
pairs; `signalRaises` records whether sending the signal raises an
unexpected error. -/
structure ProcessEnv where
  pidofOutput : Option (List Nat)
  processTable : List (Nat × String)
  signalRaises : Bool
deriving DecidableEq, Repr

/-- Strategy 1: the first pid reported by `pidof yggdrasil`. -/
def pidofFind (env : ProcessEnv) : Option Nat :=
  match env.pidofOutput with
  | some (pid :: _) => some pid
  | _ => none

/-- Strategy 2: the first process-table row whose command line contains
the daemon name case-insensitively. -/
def psFind (env : ProcessEnv) : Option Nat :=
  (env.processTable.find? (fun p => strContainsSub (strToLower p.snd) ("yggdrasil"))).map
    (fun p => p.fst)

/-- Ordered two-strategy discovery: fast pid lookup first, then the full
process-table scan. -/
def findDaemonProcess (env : ProcessEnv) : Option Nat :=
  match pidofFind env with
  | some pid => some pid
  | none => psFind env

/-- Modelled from the spec: `reload_yggdrasil` returns true exactly when a
process is found and the reload signal is delivered; a missing process or
any unexpected error during discovery or signaling is caught internally
and yields false, never an exception. -/
def reloadYggdrasil (env : ProcessEnv) : Bool :=
  match findDaemonProcess env with
  | some _ => !env.signalRaises
  | none => false

/-! ## Frontend fetchAPI wrapper -/

/-- The parsed JSON body of a response, viewed through the `ApiError`
shape: the `error` field when present as a string. -/
structure ApiBody where
  errorField : Option String
deriving DecidableEq, Repr

/-- An HTTP response as observed by `fetchAPI`: the `ok` flag, status
line, and the outcome of `response.json()` (`Except.error` carries the
message of the rejected parse). -/
structure HttpResponse where
  ok : Bool
  status : Nat
  statusText : String
  body : Except String ApiBody
deriving Repr

/-- The fallback message built by `fetchAPI` for a non-ok response whose
body carries no usable `error` field. -/
def httpFallbackMessage (r : HttpResponse) : String :=
  "HTTP " ++ toString r.status ++ ": " ++ r.statusText

/-- The `fetchAPI` wrapper: `response.json()` runs first, and a rejected
parse is rethrown unchanged by the catch block; only then is `response.ok`
consulted, a non-ok response throwing the body's `error` field when it is
a non-empty string and the HTTP fallback message otherwise. -/
def fetchAPI (r : HttpResponse) : Except String ApiBody :=
  match r.body with
  | .error msg => .error msg
  | .ok data =>
    if r.ok then .ok data
    else
      match data.errorField with
      | some e => if e = "" then .error (httpFallbackMessage r) else .error e
      | none => .error (httpFallbackMessage r)

/-! ## Settings page exit-node toggle handler -/

/-- The component state touched by `handleExitNodeToggle`. -/
structure SettingsState where
  exitNodeEnabled : Bool
  isSaving : Bool
  errorMsg : Option String
  successMsg : Option String
deriving DecidableEq, Repr

/-- The `/api/exit-node` response shape seen by the settings page. -/
structure ExitNodeResp where
  enabled : Bool
  advertised : List String
  reloadSuccess : Bool
deriving DecidableEq, Repr

/-- The outcome of the awaited `setExitNode` call: a resolved response or
a rejection carrying the thrown error's message. -/
inductive ApiOutcome where
  | resolved (resp : ExitNodeResp)
  | rejected (msg : String)
deriving DecidableEq, Repr

/-- The outcomes the handler treats as failures: a rejection, or a
resolved response with `reload_success = false`. -/
def outcomeFailed : ApiOutcome → Bool
  | .resolved resp => !resp.reloadSuccess
  | .rejected _ => true

/-- The settings-page toggle handler: optimistic update of
`exitNodeEnabled` to the requested value, then on a failed outcome the
catch block reverts `exitNodeEnabled` to `!enabled` and records an error
message; `isSaving` is cleared in the finally block. -/
def handleExitNodeToggle (s : SettingsState) (enabled : Bool) (outcome : ApiOutcome) :
    SettingsState :=
  let s1 : SettingsState :=
    { s with exitNodeEnabled := enabled, isSaving := true, errorMsg := none, successMsg := none }
  let okMsg :=
    if enabled then "Exit node enabled successfully" else "Exit node disabled successfully"
  let s2 : SettingsState :=
    match outcome with
    | .resolved resp =>
      if resp.reloadSuccess then { s1 with successMsg := some okMsg }
      else
        let m := "Failed to reload Yggdrasil configuration"
        { s1 with exitNodeEnabled := !enabled, errorMsg := some m }
    | .rejected msg => { s1 with exitNodeEnabled := !enabled, errorMsg := some msg }
  { s2 with isSaving := false }

/-! ## Config Store: canonical JSON-like serialization -/

/-- The opening-brace character of the serialized form. -/
def lbrace : Char := Char.ofNat 123

/-- The closing-brace character of the serialized form. -/
def rbrace : Char := Char.ofNat 125

/-- String escaping of the canonical output: backslash and double quote
are escaped, every other character is emitted literally. -/
def escapeChar (c : Char) : List Char :=
  if c = '\\' then ['\\', '\\'] else if c = '"' then ['\\', '"'] else [c]

/-- Escape a whole character list. -/
def escapeChars : List Char → List Char
  | [] => []
  | c :: cs => escapeChar c ++ escapeChars cs

/-- A serialized string literal. -/
def printString (s : String) : List Char :=
  '"' :: (escapeChars s.data ++ ['"'])

/-- The comma-prefixed tail of a serialized string array. -/
def printStringsTail : List String → List Char
  | [] => []
  | s :: ss => ',' :: (printString s ++ printStringsTail ss)

/-- A serialized string array. -/
def printArr : List String → List Char
  | [] => ['[', ']']
  | s :: ss => '[' :: (printString s ++ (printStringsTail ss ++ [']']))

/-- The characters of the `true` literal. -/
def trueChars : List Char := ['t', 'r', 'u', 'e']

/-- The characters of the `false` literal. -/
def falseChars : List Char := ['f', 'a', 'l', 's', 'e']

/-- A serialized boolean literal. -/
def printBool (b : Bool) : List Char := if b then trueChars else falseChars

/-- The opening of the document: a brace and the `Peers` key. -/
def peersKey : List Char := ("\x7b\"Peers\":").data

/-- The `AdminListen` key with its separating comma. -/
def adminKey : List Char := (",\"AdminListen\":").data

/-- The `TunnelRouting` key. -/
def routingKey : List Char := ("\"TunnelRouting\":").data

/-- The opening of the routing block: a brace and the `Enable` key. -/
def enableKey : List Char := ("\x7b\"Enable\":").data

/-- The `IPv6Destinations` key with its separating comma. -/
def d6Key : List Char := (",\"IPv6Destinations\":").data

/-- The `IPv6Sources` key with its separating comma. -/
def s6Key : List Char := (",\"IPv6Sources\":").data

/-- The `IPv4Destinations` key with its separating comma. -/
def d4Key : List Char := (",\"IPv4Destinations\":").data

/-- The `IPv4Sources` key with its separating comma. -/
def s4Key : List Char := (",\"IPv4Sources\":").data

/-- The canonical serialization of a routing block. -/
def printTunnelRouting (tr : TunnelRouting) : List Char :=
  enableKey ++ printBool tr.enable ++ d6Key ++ printArr tr.ipv6Destinations ++
    s6Key ++ printArr tr.ipv6Sources ++ d4Key ++ printArr tr.ipv4Destinations ++
    s4Key ++ printArr tr.ipv4Sources ++ [rbrace]

/-- The canonical JSON-like serialization of a whole document; an absent
routing block stays absent. -/
def printConfigDocument (cfg : ConfigDocument) : List Char :=
  peersKey ++ printArr cfg.peers ++ adminKey ++ printString cfg.adminListen ++
    (match cfg.tunnelRouting with
     | none => []
     | some tr => ',' :: (routingKey ++ printTunnelRouting tr)) ++ [rbrace]

/-- Consume an expected literal run of characters. -/
def expectChars : List Char → List Char → Option (List Char)
  | [], input => some input
  | _ :: _, [] => none
  | c :: cs, i :: is => if c = i then expectChars cs is else none

/-- Parse the body of a string literal after its opening quote, undoing
the escaping; returns the collected characters and the input after the
closing quote. -/
def parseStringBody : List Char → Option (List Char × List Char)
  | [] => none
  | c :: cs =>
    if c = '"' then some ([], cs)
    else if c = '\\' then
      match cs with
      | [] => none
      | d :: ds => (parseStringBody ds).map (fun p => (d :: p.1, p.2))
    else (parseStringBody cs).map (fun p => (c :: p.1, p.2))

/-- Parse a string literal. -/
def parseString (input : List Char) : Option (String × List Char) :=
  match input with
  | [] => none
  | c :: cs =>
    if c = '"' then (parseStringBody cs).map (fun p => (String.mk p.1, p.2))
    else none

/-- Parse the rest of a string array after its first element: a run of
comma-prefixed strings up to the closing bracket.  The fuel bounds the
number of elements; callers pass the input length. -/
def parseStringsRest : Nat → List Char → Option (List String × List Char)
  | _, [] => none
  | fuel, c :: cs =>
    if c = ']' then some ([], cs)
    else if c = ',' then
      match fuel, parseString cs with
      | _, none => none
      | 0, some _ => none
      | f + 1, some (s, rest) => (parseStringsRest f rest).map (fun p => (s :: p.1, p.2))
    else none

/-- Parse a string array. -/
def parseArr (input : List Char) : Option (List String × List Char) :=
  match input with
  | [] => none
  | c :: cs =>
    if c = '[' then
      match cs with
      | [] => none
      | d :: ds =>
        if d = ']' then some ([], ds)
        else
          match parseString cs with
          | none => none
          | some (s, rest) => (parseStringsRest rest.length rest).map (fun p => (s :: p.1, p.2))
    else none

/-- Parse a boolean literal. -/
def parseBool (input : List Char) : Option (Bool × List Char) :=
  match expectChars trueChars input with
  | some rest => some (true, rest)
  | none =>
    match expectChars falseChars input with
    | some rest => some (false, rest)
    | none => none

/-- Parse a routing block in the canonical form. -/
def parseTunnelRouting (input : List Char) : Option (TunnelRouting × List Char) :=
  (expectChars enableKey input).bind fun r1 =>
  (parseBool r1).bind fun p1 =>
  (expectChars d6Key p1.2).bind fun r2 =>
  (parseArr r2).bind fun p2 =>
  (expectChars s6Key p2.2).bind fun r3 =>
  (parseArr r3).bind fun p3 =>
  (expectChars d4Key p3.2).bind fun r4 =>
  (parseArr r4).bind fun p4 =>
  (expectChars s4Key p4.2).bind fun r5 =>
  (parseArr r5).bind fun p5 =>
  (expectChars [rbrace] p5.2).map fun r6 =>
  (TunnelRouting.mk p1.1 p2.1 p3.1 p4.1 p5.1, r6)

/-- Parse a whole document in the canonical JSON-like form, requiring the
input to be consumed entirely; the routing block is optional. -/
def parseConfigDocument (input : List Char) : Option ConfigDocument :=
  (expectChars peersKey input).bind fun r1 =>
  (parseArr r1).bind fun p1 =>
  (expectChars adminKey p1.2).bind fun r2 =>
  (parseString r2).bind fun p2 =>
  match p2.2 with
  | [] => none
  | c :: r3 =>
    if c = ',' then
      (expectChars routingKey r3).bind fun r4 =>
      (parseTunnelRouting r4).bind fun p3 =>
      match p3.2 with
      | [c2] => if c2 = rbrace then some (ConfigDocument.mk p1.1 p2.1 (some p3.1)) else none
      | _ => none
    else if c = rbrace then
      match r3 with
      | [] => some (ConfigDocument.mk p1.1 p2.1 none)
      | _ => none
    else none

/-! ## Config Store: relaxed TOML-like fallback parse -/

/-- Split character content into newline-separated lines. -/
def splitLines : List Char → List (List Char)
  | [] => [[]]
  | c :: cs =>
    if c = '\n' then [] :: splitLines cs
    else
      match splitLines cs with
      | [] => [[c]]
      | l :: ls => (c :: l) :: ls

/-- Blank lines and comment lines are tolerated and skipped. -/
def isCommentOrBlank (l : List Char) : Bool :=
  match l with
  | [] => true
  | c :: _ => c == '#'

/-- Consume a `Key = ` opener on a line. -/
def parseKeyEq (key : String) (line : List Char) : Option (List Char) :=
  expectChars ((key ++ " = ").data) line

/-- A `Key = [array]` line. -/
def parseArrLine (key : String) (line : List Char) : Option (List String) :=
  match parseKeyEq key line with
  | none => none
  | some r =>
    match parseArr r with
    | some (l, []) => some l
    | _ => none

/-- A `Key = "string"` line. -/
def parseStringLine (key : String) (line : List Char) : Option String :=
  match parseKeyEq key line with
  | none => none
  | some r =>
    match parseString r with
    | some (s, []) => some s
    | _ => none

/-- A `Key = bool` line. -/
def parseBoolLine (key : String) (line : List Char) : Option Bool :=
  match parseKeyEq key line with
  | none => none
  | some r =>
    match parseBool r with
    | some (b, []) => some b
    | _ => none

/-- Modelled from the spec: the relaxed TOML-like fallback parse of the
relevant substructure (comments and blank lines tolerated, routing block
optional); the full permissive grammar of the source library is not in
the repository. -/
def parseTomlDocument (input : List Char) : Option ConfigDocument :=
  match (splitLines input).filter (fun l => !(isCommentOrBlank l)) with
  | [pl, al] =>
    (parseArrLine ("Peers") pl).bind fun ps =>
    (parseStringLine ("AdminListen") al).map fun ad =>
    ConfigDocument.mk ps ad none
  | [pl, al, el, l1, l2, l3, l4] =>
    (parseArrLine ("Peers") pl).bind fun ps =>
    (parseStringLine ("AdminListen") al).bind fun ad =>
    (parseBoolLine ("Enable") el).bind fun en =>
    (parseArrLine ("IPv6Destinations") l1).bind fun a =>
    (parseArrLine ("IPv6Sources") l2).bind fun b =>
    (parseArrLine ("IPv4Destinations") l3).bind fun c =>
    (parseArrLine ("IPv4Sources") l4).map fun d =>
    ConfigDocument.mk ps ad (some (TunnelRouting.mk en a b c d))
  | _ => none

/-! ## Config Store: load and save -/

/-- The storage-layer failure of the load path. -/
inductive ConfigError where
  | configCorrupt
deriving DecidableEq, Repr

/-- Modelled from the spec: the default admin listen address of the
deterministic default document. -/
def defaultAdminListen : String := "unix:///var/run/yggdrasil/yggdrasil.sock"

/-- Modelled from the spec: the deterministic default document returned
when the config file does not exist: empty peers, routing disabled,
default admin listen address. -/
def defaultConfigDocument : ConfigDocument :=
  ConfigDocument.mk [] defaultAdminListen none

/-- Routing counts as disabled when the block is absent or its flag is
off. -/
def routingDisabled (cfg : ConfigDocument) : Bool :=
  match cfg.tunnelRouting with
  | none => true
  | some tr => !tr.enable

/-- Modelled from the spec: `read_yggdrasil_config` over the file state
(`none` models a missing file): the JSON-like parse is attempted first,
then the TOML-like fallback; a missing file yields the default document;
`ConfigCorrupt` arises only when both parses fail on existing content. -/
def readYggdrasilConfig (file : Option (List Char)) : Except ConfigError ConfigDocument :=
  match file with
  | none => .ok defaultConfigDocument
  | some content =>
    match parseConfigDocument content with
    | some d => .ok d
    | none =>
      match parseTomlDocument content with
      | some d => .ok d
      | none => .error .configCorrupt

/-- Modelled from the spec: `write_yggdrasil_config` serializes to the
canonical JSON-like form regardless of the input format; the atomic
temp-file-plus-rename is elided, the model returning the content that
lands in the file. -/
def writeYggdrasilConfig (cfg : ConfigDocument) : List Char :=
  printConfigDocument cfg

/-! ## Helper lemmas -/

/-- A routing block with a non-empty destination set is not route-empty. -/
theorem routesEmpty_false_of_dests (tr : TunnelRouting) (h : tr.ipv6Destinations ≠ []) :
    routesEmpty tr = false := by
  rcases h' : tr.ipv6Destinations with _ | ⟨a, l⟩
  · exact absurd h' h
  · simp [routesEmpty, h']

/-- Enabling leaves a non-empty destination set. -/
theorem setExitNodeRouting_true_dests_ne_nil (tr : TunnelRouting) :
    (setExitNodeRouting tr true).ipv6Destinations ≠ [] := by
  by_cases h : allAddressesRoute ∈ tr.ipv6Destinations
  · simp only [setExitNodeRouting, if_pos rfl, h, if_true]
    exact List.ne_nil_of_mem h
  · simp [setExitNodeRouting, h]

/-- The toggle establishes the route invariant on the block it returns. -/
theorem setExitNodeRouting_invariant (tr : TunnelRouting) (e : Bool) :
    (!(setExitNodeRouting tr e).enable || !(routesEmpty (setExitNodeRouting tr e))) = true := by
  cases e with
  | true =>
    have h := routesEmpty_false_of_dests _ (setExitNodeRouting_true_dests_ne_nil tr)
    simp [h]
  | false =>
    by_cases hr :
        routesEmpty { tr with ipv6Destinations := tr.ipv6Destinations.erase allAddressesRoute }
    · simp [setExitNodeRouting, hr]
    · simp [setExitNodeRouting, hr]

/-- Enabling twice produces the same block as enabling once. -/
theorem setExitNodeRouting_true_idem (tr : TunnelRouting) :
    setExitNodeRouting (setExitNodeRouting tr true) true = setExitNodeRouting tr true := by
  by_cases h : allAddressesRoute ∈ tr.ipv6Destinations
  · simp [setExitNodeRouting, h]
  · simp [setExitNodeRouting, h]

/-! ## Claims -/

/-- C1: for every ConfigDocument, including one with no prior tunnelRouting
block, after setExitNode with either flag the document satisfies the
invariant that tunnelRouting.enabled is true only if one of the four route
sets is non-empty; and setExitNode true on a config with no routing block
yields enabled true with advertised routes exactly the all-addresses
route. -/
theorem claim_C1_set_exit_node_invariant (cfg : ConfigDocument) (enabled : Bool) :
    configRoutingInvariant (setExitNode cfg enabled) = true ∧
      (cfg.tunnelRouting = none →
        exitNodeEnabledFlag (setExitNode cfg true) = true ∧
          advertisedRoutes (setExitNode cfg true) = [allAddressesRoute]) := by
  constructor
  · exact setExitNodeRouting_invariant (cfg.tunnelRouting.getD emptyTunnelRouting) enabled
  · intro h
    simp [setExitNode, exitNodeEnabledFlag, advertisedRoutes, h, emptyTunnelRouting,
      setExitNodeRouting, allAddressesRoute]

/-- C1 witness: the enable toggle on a concrete document with no routing
block, for both flag values. -/
theorem claim_C1_witness :
    configRoutingInvariant (setExitNode (ConfigDocument.mk [] ("a") none) true) = true ∧
      exitNodeEnabledFlag (setExitNode (ConfigDocument.mk [] ("a") none) true) = true ∧
      advertisedRoutes (setExitNode (ConfigDocument.mk [] ("a") none) true) =
        [allAddressesRoute] :=
  ⟨(claim_C1_set_exit_node_invariant (ConfigDocument.mk [] ("a") none) true).1,
   (claim_C1_set_exit_node_invariant (ConfigDocument.mk [] ("a") none) true).2 rfl⟩

/-- Structural description of the disable branch: the destination set
loses the all-addresses route, and the flag is cleared exactly on the
route-empty outcome and kept otherwise. -/
theorem setExitNodeRouting_false_spec (tr : TunnelRouting) :
    (setExitNodeRouting tr false).ipv6Destinations =
        tr.ipv6Destinations.erase allAddressesRoute ∧
      (setExitNodeRouting tr false).ipv6Sources = tr.ipv6Sources ∧
      (setExitNodeRouting tr false).ipv4Destinations = tr.ipv4Destinations ∧
      (setExitNodeRouting tr false).ipv4Sources = tr.ipv4Sources ∧
      (routesEmpty (setExitNodeRouting tr false) = true →
        (setExitNodeRouting tr false).enable = false) ∧
      (routesEmpty (setExitNodeRouting tr false) = false →
        (setExitNodeRouting tr false).enable = tr.enable) := by
  by_cases hr :
      routesEmpty { tr with ipv6Destinations := tr.ipv6Destinations.erase allAddressesRoute } = true
  · have h2 : setExitNodeRouting tr false =
        { tr with enable := false,
                  ipv6Destinations := tr.ipv6Destinations.erase allAddressesRoute } := by
      show (if routesEmpty _ = true then _ else _) = _
      rw [if_pos hr]
    rw [h2]
    refine ⟨rfl, rfl, rfl, rfl, fun _ => rfl, fun h => ?_⟩
    exfalso
    have hAB : routesEmpty
        { tr with enable := false,
                  ipv6Destinations := tr.ipv6Destinations.erase allAddressesRoute } =
        routesEmpty
          { tr with ipv6Destinations := tr.ipv6Destinations.erase allAddressesRoute } := rfl
    rw [hAB, hr] at h
    exact Bool.noConfusion h
  · have hr' :
        routesEmpty { tr with ipv6Destinations := tr.ipv6Destinations.erase allAddressesRoute } =
          false := by
      cases h :
          routesEmpty { tr with ipv6Destinations := tr.ipv6Destinations.erase allAddressesRoute }
      · rfl
      · exact absurd h hr
    have h2 : setExitNodeRouting tr false =
        { tr with ipv6Destinations := tr.ipv6Destinations.erase allAddressesRoute } := by
      show (if routesEmpty _ = true then _ else _) = _
      rw [if_neg hr]
    rw [h2]
    refine ⟨rfl, rfl, rfl, rfl, fun h => ?_, fun _ => rfl⟩
    exfalso
    rw [hr'] at h
    exact Bool.noConfusion h

/-- C2: for every ConfigDocument, setExitNode false removes the
all-addresses route from ipv6Destinations if present (first occurrence,
via erase) and then clears tunnelRouting.enabled exactly when all four
route sets are empty; when any route remains the flag is left as it was,
in particular left true when it was true. -/
theorem claim_C2_disable_exit_node (cfg : ConfigDocument) :
    (setExitNode cfg false).tunnelRouting =
        some (setExitNodeRouting (cfg.tunnelRouting.getD emptyTunnelRouting) false) ∧
      (setExitNodeRouting (cfg.tunnelRouting.getD emptyTunnelRouting) false).ipv6Destinations =
        (cfg.tunnelRouting.getD emptyTunnelRouting).ipv6Destinations.erase allAddressesRoute ∧
      (routesEmpty (setExitNodeRouting (cfg.tunnelRouting.getD emptyTunnelRouting) false) = true →
        (setExitNodeRouting (cfg.tunnelRouting.getD emptyTunnelRouting) false).enable = false) ∧
      (routesEmpty (setExitNodeRouting (cfg.tunnelRouting.getD emptyTunnelRouting) false) =
          false →
        (setExitNodeRouting (cfg.tunnelRouting.getD emptyTunnelRouting) false).enable =
          (cfg.tunnelRouting.getD emptyTunnelRouting).enable) ∧
      ((cfg.tunnelRouting.getD emptyTunnelRouting).enable = true →
        ((setExitNodeRouting (cfg.tunnelRouting.getD emptyTunnelRouting) false).enable = false ↔
          routesEmpty (setExitNodeRouting (cfg.tunnelRouting.getD emptyTunnelRouting) false) =
            true)) := by
  obtain ⟨h1, _, _, _, h5, h6⟩ :=
    setExitNodeRouting_false_spec (cfg.tunnelRouting.getD emptyTunnelRouting)
  refine ⟨rfl, h1, h5, h6, fun he => ⟨fun hf => ?_, fun ht => h5 ht⟩⟩
  cases hq : routesEmpty (setExitNodeRouting (cfg.tunnelRouting.getD emptyTunnelRouting) false)
  · rw [h6 hq, he] at hf
    exact Bool.noConfusion hf
  · rfl

/-- C2 witness: disabling when the all-addresses route is the only route
clears the flag on a concrete document. -/
theorem claim_C2_witness :
    routesEmpty (setExitNodeRouting (TunnelRouting.mk true [allAddressesRoute] [] [] []) false) =
        true ∧
      (setExitNodeRouting (TunnelRouting.mk true [allAddressesRoute] [] [] []) false).enable =
        false :=
  ⟨by decide,
   (claim_C2_disable_exit_node
       (ConfigDocument.mk [] ("a")
         (some (TunnelRouting.mk true [allAddressesRoute] [] [] [])))).2.2.1 (by decide)⟩

/-- C8: setExitNode true is idempotent on the whole document, hence in
particular on the ipv6Destinations route set and the enabled flag, because
the all-addresses route is appended only when not already present. -/
theorem claim_C8_enable_idempotent (cfg : ConfigDocument) :
    setExitNode (setExitNode cfg true) true = setExitNode cfg true := by
  unfold setExitNode
  simp [setExitNodeRouting_true_idem]

/-- C3: the added list returned by bootstrap is disjoint from the
pre-existing peers, the new peer list is the old one followed by exactly
the added URIs, and the added URIs appear in selection order. -/
theorem claim_C3_bootstrap_dedup (cfg : ConfigDocument)
    (peerData : List (String × List String)) (targetCount : Nat) :
    (∀ x ∈ (bootstrap cfg peerData targetCount).2, x ∉ cfg.peers) ∧
      (bootstrap cfg peerData targetCount).1.peers =
        cfg.peers ++ (bootstrap cfg peerData targetCount).2 ∧
      List.Sublist (bootstrap cfg peerData targetCount).2
        (selectPeers (eligiblePeers peerData) targetCount) := by
  refine ⟨?_, rfl, ?_⟩
  · intro x hx
    have hx' : x ∈ (selectPeers (eligiblePeers peerData) targetCount).filter
        (fun p => decide (p ∉ cfg.peers)) := hx
    have h := List.of_mem_filter hx'
    simpa using h
  · exact List.filter_sublist _

/-- C3 witness: on a concrete document and candidate feed the appended URI
is not among the pre-existing peers. -/
theorem claim_C3_witness :
    ("tcp://b:9001" : String) ∉ (ConfigDocument.mk ["tcp://a:9001"] ("x") none).peers :=
  (claim_C3_bootstrap_dedup (ConfigDocument.mk ["tcp://a:9001"] ("x") none)
      [("United States", ["tcp://a:9001", "tcp://b:9001"]), ("Japan", ["tcp://j:9001"])]
      3).1 ("tcp://b:9001") (by decide)

/-- C4: on a non-empty eligible pool, the selection returns exactly
targetCount peers drawn without replacement (a sublist, distinct whenever
the pool is deduplicated) when the pool has at least targetCount
elements, and returns the whole pool (exactly the eligible count, without
failing) when it has fewer. -/
theorem claim_C4_bootstrap_selection_count (peerData : List (String × List String))
    (targetCount : Nat) (hne : eligiblePeers peerData ≠ []) :
    (targetCount ≤ (eligiblePeers peerData).length →
        (selectPeers (eligiblePeers peerData) targetCount).length = targetCount ∧
          List.Sublist (selectPeers (eligiblePeers peerData) targetCount)
            (eligiblePeers peerData) ∧
          ((eligiblePeers peerData).Nodup →
            (selectPeers (eligiblePeers peerData) targetCount).Nodup)) ∧
      ((eligiblePeers peerData).length < targetCount →
        selectPeers (eligiblePeers peerData) targetCount = eligiblePeers peerData) := by
  constructor
  · intro hk
    have hnlt : ¬ (eligiblePeers peerData).length < targetCount := not_lt.mpr hk
    have hsel : selectPeers (eligiblePeers peerData) targetCount =
        (eligiblePeers peerData).take targetCount := by
      simp [selectPeers, hnlt]
    rw [hsel]
    refine ⟨?_, List.take_sublist _ _, fun hnd => hnd.sublist (List.take_sublist _ _)⟩
    rw [List.length_take]
    omega
  · intro hlt
    simp [selectPeers, hlt]

/-- C4 witness: a concrete pool of four candidates yields exactly three
selected peers. -/
theorem claim_C4_witness :
    (selectPeers (eligiblePeers [("us", ["a", "b", "c", "d"])]) 3).length = 3 :=
  ((claim_C4_bootstrap_selection_count [("us", ["a", "b", "c", "d"])] 3
      (by decide)).1 (by decide)).1

/-- C7: reload is a total boolean function of the observed system state:
it returns true exactly when the signal does not raise and one of the two
discovery strategies finds a daemon process, and it returns false whenever
neither strategy finds one. -/
theorem claim_C7_reload_total (env : ProcessEnv) :
    (reloadYggdrasil env = true ↔
        (env.signalRaises = false ∧ (pidofFind env ≠ none ∨ psFind env ≠ none))) ∧
      (findDaemonProcess env = none → reloadYggdrasil env = false) := by
  constructor
  · cases hp : pidofFind env with
    | some pid =>
      have hf : findDaemonProcess env = some pid := by simp [findDaemonProcess, hp]
      simp [reloadYggdrasil, hf, hp]
    | none =>
      cases hq : psFind env with
      | some pid =>
        have hf : findDaemonProcess env = some pid := by simp [findDaemonProcess, hp, hq]
        simp [reloadYggdrasil, hf, hp, hq]
      | none =>
        have hf : findDaemonProcess env = none := by simp [findDaemonProcess, hp, hq]
        simp [reloadYggdrasil, hf, hp, hq]
  · intro h
    simp [reloadYggdrasil, h]

/-- C7 witness: a concrete state where the fast lookup finds pid 7 and
signaling succeeds yields true. -/
theorem claim_C7_witness : reloadYggdrasil (ProcessEnv.mk (some [7]) [] false) = true :=
  (claim_C7_reload_total (ProcessEnv.mk (some [7]) [] false)).1.mpr
    ⟨rfl, Or.inl (by decide)⟩

/-- C9 counterexample: a non-ok response whose body does not parse as JSON
makes fetchAPI throw the rethrown parse error, not the HTTP fallback
message the claim prescribes for a body without a non-empty error field. -/
theorem claim_C9_counterexample :
    (HttpResponse.mk false 502 ("Bad Gateway") (Except.error ("Unexpected token"))).ok = false ∧
      fetchAPI (HttpResponse.mk false 502 ("Bad Gateway") (Except.error ("Unexpected token"))) ≠
        Except.error
          (httpFallbackMessage
            (HttpResponse.mk false 502 ("Bad Gateway") (Except.error ("Unexpected token")))) := by
  refine ⟨rfl, fun h => ?_⟩
  injection h with h'
  exact absurd h' (by decide)

/-- C9 amended: for every non-ok response, fetchAPI throws and never
returns; when the body parses as JSON the thrown message is the body's
error field when it is a non-empty string and the HTTP fallback otherwise;
when the body does not parse the thrown error is the rethrown parse
failure; a value is returned only when the response is ok and its body
parses. -/
theorem claim_C9_fetch_api_amended (r : HttpResponse) :
    (r.ok = false → ∃ m, fetchAPI r = Except.error m) ∧
      (∀ data e, r.body = Except.ok data → r.ok = false → data.errorField = some e → e ≠ "" →
        fetchAPI r = Except.error e) ∧
      (∀ data, r.body = Except.ok data → r.ok = false →
        (data.errorField = none ∨ data.errorField = some "") →
        fetchAPI r = Except.error (httpFallbackMessage r)) ∧
      (∀ m, r.body = Except.error m → fetchAPI r = Except.error m) ∧
      (∀ v, fetchAPI r = Except.ok v → r.ok = true ∧ r.body = Except.ok v) := by
  refine ⟨?_, ?_, ?_, ?_, ?_⟩
  · intro ho
    cases hb : r.body with
    | error m => exact ⟨m, by simp [fetchAPI, hb]⟩
    | ok data =>
      cases he : data.errorField with
      | none => exact ⟨httpFallbackMessage r, by simp [fetchAPI, hb, ho, he]⟩
      | some e =>
        by_cases h0 : e = ""
        · exact ⟨httpFallbackMessage r, by simp [fetchAPI, hb, ho, he, h0]⟩
        · exact ⟨e, by simp [fetchAPI, hb, ho, he, h0]⟩
  · intro data e hb ho he h0
    simp [fetchAPI, hb, ho, he, h0]
  · intro data hb ho he
    rcases he with he | he
    · simp [fetchAPI, hb, ho, he]
    · simp [fetchAPI, hb, ho, he]
  · intro m hb
    simp [fetchAPI, hb]
  · intro v hv
    cases hb : r.body with
    | error m =>
      simp [fetchAPI, hb] at hv
    | ok data =>
      by_cases ho : r.ok = true
      · simp [fetchAPI, hb, ho] at hv
        exact ⟨ho, congrArg Except.ok hv⟩
      · exfalso
        simp [fetchAPI, hb, ho] at hv
        cases he : data.errorField with
        | none => simp [he] at hv
        | some e =>
          by_cases h0 : e = ""
          · simp [he, h0] at hv
          · simp [he, h0] at hv

/-- C9 witness: a non-ok response with a JSON body carrying a non-empty
error field throws exactly that field. -/
theorem claim_C9_witness :
    fetchAPI (HttpResponse.mk false 400 ("Bad Request")
        (Except.ok (ApiBody.mk (some ("boom"))))) = Except.error ("boom") :=
  (claim_C9_fetch_api_amended
      (HttpResponse.mk false 400 ("Bad Request")
        (Except.ok (ApiBody.mk (some ("boom")))))).2.1
    (ApiBody.mk (some ("boom"))) ("boom") rfl rfl rfl (by decide)

/-- C10: when the displayed toggle state is the negation of the requested
value and the call fails (a rejection, or a resolved response with
reload_success false), the handler restores exitNodeEnabled to its
pre-call value and records an error message. -/
theorem claim_C10_toggle_revert (s : SettingsState) (e : Bool) (outcome : ApiOutcome)
    (hpre : s.exitNodeEnabled = !e) (hfail : outcomeFailed outcome = true) :
    (handleExitNodeToggle s e outcome).exitNodeEnabled = s.exitNodeEnabled ∧
      (handleExitNodeToggle s e outcome).errorMsg.isSome = true := by
  cases outcome with
  | rejected msg => simp [handleExitNodeToggle, hpre]
  | resolved resp =>
    have hr : resp.reloadSuccess = false := by
      cases h : resp.reloadSuccess
      · rfl
      · simp [outcomeFailed, h] at hfail
    simp [handleExitNodeToggle, hr, hpre]

/-- C10 witness: a concrete rejected call on a displayed-enabled state
restores the displayed value and sets an error. -/
theorem claim_C10_witness :
    (handleExitNodeToggle (SettingsState.mk true false none none) false
        (ApiOutcome.rejected ("boom"))).exitNodeEnabled = true ∧
      (handleExitNodeToggle (SettingsState.mk true false none none) false
        (ApiOutcome.rejected ("boom"))).errorMsg.isSome = true :=
  claim_C10_toggle_revert (SettingsState.mk true false none none) false
    (ApiOutcome.rejected ("boom")) rfl rfl

/-! ## Round-trip lemmas for the canonical serialization -/

/-- A literal run parses off the front of any input that starts with it. -/
theorem expectChars_append (l rest : List Char) : expectChars l (l ++ rest) = some rest := by
  induction l with
  | nil => rfl
  | cons c cs ih => simp [expectChars, ih]

/-- Step equation: a closing quote ends the string body. -/
theorem parseStringBody_quote (rest : List Char) :
    parseStringBody ('"' :: rest) = some ([], rest) := by
  rw [parseStringBody.eq_def]
  simp

/-- Step equation: a backslash takes the next character verbatim. -/
theorem parseStringBody_esc (d : Char) (ds : List Char) :
    parseStringBody ('\\' :: (d :: ds)) =
      (parseStringBody ds).map (fun p => (d :: p.1, p.2)) := by
  rw [parseStringBody.eq_def]
  simp

/-- Step equation: any other character is taken verbatim. -/
theorem parseStringBody_other (c : Char) (cs : List Char) (h1 : ¬ c = '"')
    (h2 : ¬ c = '\\') :
    parseStringBody (c :: cs) = (parseStringBody cs).map (fun p => (c :: p.1, p.2)) := by
  rw [parseStringBody.eq_def]
  simp [h1, h2]

/-- Unescaping undoes escaping for every character list. -/
theorem parseStringBody_round (s : List Char) (rest : List Char) :
    parseStringBody (escapeChars s ++ ('"' :: rest)) = some (s, rest) := by
  induction s with
  | nil => simp [escapeChars, parseStringBody_quote]
  | cons c cs ih =>
    by_cases h1 : c = '\\'
    · subst h1
      have hshape : escapeChars ('\\' :: cs) ++ ('"' :: rest) =
          '\\' :: ('\\' :: (escapeChars cs ++ ('"' :: rest))) := by
        simp [escapeChars, escapeChar]
      rw [hshape, parseStringBody_esc, ih]
      rfl
    · by_cases h2 : c = '"'
      · subst h2
        have hshape : escapeChars ('"' :: cs) ++ ('"' :: rest) =
            '\\' :: ('"' :: (escapeChars cs ++ ('"' :: rest))) := by
          simp [escapeChars, escapeChar]
        rw [hshape, parseStringBody_esc, ih]
        rfl
      · have hshape : escapeChars (c :: cs) ++ ('"' :: rest) =
            c :: (escapeChars cs ++ ('"' :: rest)) := by
          simp [escapeChars, escapeChar, h1, h2]
        rw [hshape, parseStringBody_other c _ h2 h1, ih]
        rfl

/-- A printed string literal parses back to the same string. -/
theorem parseString_round (s : String) (rest : List Char) :
    parseString (printString s ++ rest) = some (s, rest) := by
  have h : printString s ++ rest = '"' :: (escapeChars s.data ++ ('"' :: rest)) := by
    simp [printString]
  rw [h]
  simp [parseString, parseStringBody_round]

/-- The printed tail of an array is at least as long as the element list. -/
theorem printStringsTail_length (ss : List String) :
    ss.length ≤ (printStringsTail ss).length := by
  induction ss with
  | nil => simp [printStringsTail]
  | cons s ss ih =>
    simp only [printStringsTail, List.length_cons, List.length_append]
    omega

/-- Step equation: a closing bracket ends the element run. -/
theorem parseStringsRest_bracket (fuel : Nat) (rest : List Char) :
    parseStringsRest fuel (']' :: rest) = some ([], rest) := by
  rw [parseStringsRest.eq_def]
  simp

/-- Step equation: a comma takes one more string element, consuming fuel. -/
theorem parseStringsRest_comma (f : Nat) (cs : List Char) (s : String) (r : List Char)
    (h : parseString cs = some (s, r)) :
    parseStringsRest (f + 1) (',' :: cs) =
      (parseStringsRest f r).map (fun p => (s :: p.1, p.2)) := by
  rw [parseStringsRest.eq_def]
  simp [h]

/-- The printed tail of an array parses back, for any sufficient fuel. -/
theorem parseStringsRest_round (ss : List String) :
    ∀ (fuel : Nat) (rest : List Char), ss.length ≤ fuel →
      parseStringsRest fuel (printStringsTail ss ++ (']' :: rest)) = some (ss, rest) := by
  induction ss with
  | nil =>
    intro fuel rest h
    have hshape : printStringsTail [] ++ (']' :: rest) = ']' :: rest := by
      simp [printStringsTail]
    rw [hshape]
    exact parseStringsRest_bracket fuel rest
  | cons s ss ih =>
    intro fuel rest h
    have hshape : printStringsTail (s :: ss) ++ (']' :: rest) =
        ',' :: (printString s ++ (printStringsTail ss ++ (']' :: rest))) := by
      simp [printStringsTail]
    rw [hshape]
    cases fuel with
    | zero => simp at h
    | succ f =>
      have hle : ss.length ≤ f := by
        simp only [List.length_cons] at h
        omega
      rw [parseStringsRest_comma f _ s _ (parseString_round s _), ih f rest hle]
      rfl

/-- Step equation: an array whose first element is a printed string
defers to the element run after that element. -/
theorem parseArr_cons_step (s : String) (Y : List Char) :
    parseArr ('[' :: (printString s ++ Y)) =
      (parseStringsRest Y.length Y).map (fun p => (s :: p.1, p.2)) := by
  have h : printString s ++ Y = '"' :: (escapeChars s.data ++ ('"' :: Y)) := by
    simp [printString]
  have hps : parseString ('"' :: (escapeChars s.data ++ ('"' :: Y))) = some (s, Y) := by
    rw [← h]
    exact parseString_round s Y
  rw [parseArr.eq_def, h]
  simp [hps]

/-- A printed string array parses back to the same list. -/
theorem parseArr_round (l : List String) (rest : List Char) :
    parseArr (printArr l ++ rest) = some (l, rest) := by
  cases l with
  | nil =>
    have h : printArr [] ++ rest = '[' :: (']' :: rest) := by simp [printArr]
    rw [h, parseArr.eq_def]
    simp
  | cons s ss =>
    have h : printArr (s :: ss) ++ rest =
        '[' :: (printString s ++ (printStringsTail ss ++ (']' :: rest))) := by
      simp [printArr]
    have hfuel : ss.length ≤ (printStringsTail ss ++ (']' :: rest)).length := by
      have := printStringsTail_length ss
      simp only [List.length_append, List.length_cons]
      omega
    rw [h, parseArr_cons_step, parseStringsRest_round ss _ rest hfuel]
    rfl

/-- A one-character literal run parses off a matching head. -/
theorem expectChars_single (c : Char) (rest : List Char) :
    expectChars [c] (c :: rest) = some rest := by
  simp [expectChars]

/-- A printed boolean parses back. -/
theorem parseBool_round (b : Bool) (rest : List Char) :
    parseBool (printBool b ++ rest) = some (b, rest) := by
  cases b with
  | true =>
    have h : printBool true ++ rest = trueChars ++ rest := rfl
    rw [h]
    simp [parseBool, expectChars_append]
  | false =>
    have h : printBool false ++ rest = falseChars ++ rest := rfl
    have hfail : expectChars trueChars (falseChars ++ rest) = none := by
      simp [trueChars, falseChars, expectChars]
    rw [h]
    simp [parseBool, hfail, expectChars_append]

/-- A printed routing block parses back. -/
theorem parseTunnelRouting_round (tr : TunnelRouting) (rest : List Char) :
    parseTunnelRouting (printTunnelRouting tr ++ rest) = some (tr, rest) := by
  have h : printTunnelRouting tr ++ rest =
      enableKey ++ (printBool tr.enable ++ (d6Key ++ (printArr tr.ipv6Destinations ++
        (s6Key ++ (printArr tr.ipv6Sources ++ (d4Key ++ (printArr tr.ipv4Destinations ++
          (s4Key ++ (printArr tr.ipv4Sources ++ ([rbrace] ++ rest)))))))))) := by
    simp [printTunnelRouting]
  rw [h]
  simp [parseTunnelRouting, expectChars_append, expectChars_single, parseBool_round,
    parseArr_round]

/-- A printed document parses back: the canonical serialization
round-trips through the canonical parse. -/
theorem parseConfigDocument_round (cfg : ConfigDocument) :
    parseConfigDocument (printConfigDocument cfg) = some cfg := by
  obtain ⟨peers, adminListen, tunnelRouting⟩ := cfg
  cases tunnelRouting with
  | none =>
    have h : printConfigDocument (ConfigDocument.mk peers adminListen none) =
        peersKey ++ (printArr peers ++ (adminKey ++ (printString adminListen ++
          ([rbrace] ++ [])))) := by
      simp [printConfigDocument]
    have hc1 : ¬ (rbrace = ',') := by decide
    rw [h]
    simp [parseConfigDocument, expectChars_append, parseArr_round, parseString_round, hc1]
  | some tr =>
    have h : printConfigDocument (ConfigDocument.mk peers adminListen (some tr)) =
        peersKey ++ (printArr peers ++ (adminKey ++ (printString adminListen ++
          (',' :: (routingKey ++ (printTunnelRouting tr ++ ([rbrace] ++ []))))))) := by
      simp [printConfigDocument]
    rw [h]
    simp [parseConfigDocument, expectChars_append, parseArr_round, parseString_round,
      parseTunnelRouting_round]

/-- C5: for every ConfigDocument, save then load reproduces the document:
save always serializes to the canonical JSON-like form and load parses it
back first, so the round-trip is format-normalizing; in particular this
holds for a document originally obtained from the TOML-like parse. -/
theorem claim_C5_save_load_round_trip (cfg : ConfigDocument) :
    readYggdrasilConfig (some (writeYggdrasilConfig cfg)) = Except.ok cfg ∧
      (∀ content, parseTomlDocument content = some cfg →
        readYggdrasilConfig (some (writeYggdrasilConfig cfg)) = Except.ok cfg) := by
  have h : readYggdrasilConfig (some (writeYggdrasilConfig cfg)) = Except.ok cfg := by
    simp [readYggdrasilConfig, writeYggdrasilConfig, parseConfigDocument_round]
  exact ⟨h, fun _ _ => h⟩

/-- C5 witness: a concrete document read from TOML-format content
round-trips through save and load. -/
theorem claim_C5_witness :
    readYggdrasilConfig (some (writeYggdrasilConfig
        (ConfigDocument.mk ["tcp://a:9001"] ("unix:///x") none))) =
      Except.ok (ConfigDocument.mk ["tcp://a:9001"] ("unix:///x") none) :=
  (claim_C5_save_load_round_trip (ConfigDocument.mk ["tcp://a:9001"] ("unix:///x") none)).2
    (("Peers = [\"tcp://a:9001\"]\nAdminListen = \"unix:///x\"").data) (by decide)

/-- C6: load never fails on a missing file, returning the deterministic
default document with empty peers, routing disabled and the default admin
listen address; and on existing content it fails, with ConfigCorrupt,
exactly when both the JSON-like parse and the TOML-like fallback fail. -/
theorem claim_C6_load_default_and_corrupt :
    (readYggdrasilConfig none = Except.ok defaultConfigDocument ∧
        defaultConfigDocument.peers = [] ∧
        routingDisabled defaultConfigDocument = true ∧
        defaultConfigDocument.adminListen = defaultAdminListen) ∧
      ∀ content, readYggdrasilConfig (some content) = Except.error ConfigError.configCorrupt ↔
        (parseConfigDocument content = none ∧ parseTomlDocument content = none) := by
  refine ⟨⟨rfl, rfl, rfl, rfl⟩, fun content => ?_⟩
  constructor
  · intro h
    cases hj : parseConfigDocument content with
    | some d => simp [readYggdrasilConfig, hj] at h
    | none =>
      cases ht : parseTomlDocument content with
      | some d => simp [readYggdrasilConfig, hj, ht] at h
      | none => exact ⟨rfl, rfl⟩
  · rintro ⟨hj, ht⟩
    simp [readYggdrasilConfig, hj, ht]

/-- C6 witness: concrete garbage content fails both parses and loads as
ConfigCorrupt. -/
theorem claim_C6_witness :
    readYggdrasilConfig (some (("@@@garbage").data)) =
      Except.error ConfigError.configCorrupt :=
  (claim_C6_load_default_and_corrupt.2 (("@@@garbage").data)).mpr ⟨by decide, by decide⟩
